import Mathlib

/-!
Verification of the autonomous-drone perception/planning pipeline.

The development shallowly embeds the two source files of the repository:
`trajectory_planner.cpp` (the Ewok-based collision-avoidance node) and
`takeoff_n_land.cpp` (the offboard take-off / marker-approach / landing
node).  Machine integers are modelled as `Nat`/`Int`, camera floats as
exact rationals, ROS callbacks as pure state-transformers, and the
external service/transform boundary as explicit `Option` parameters.

The internals of the Ewok library (`EuclideanDistanceRingBuffer`,
`Polynomial3DOptimization`) are not part of the repository sources; the
definitions for them below are modelled from the specification and say so
in their doc comments.
-/

namespace DroneVerify

/-- Log2 of the distance-volume edge length (`static const int POW = 6` in
trajectory_planner.cpp). -/
def POW : ℕ := 6

/-- Edge length of the cubic ring-buffer volume, `2^POW = 64` voxels. -/
def N : ℕ := 2 ^ POW

/-- Physical voxel edge (`resolution = 0.1` in trajectory_planner.cpp). -/
def resolution : ℚ := 1 / 10

/-- Integer 3-vector, the grid-index type (`Eigen::Vector3i`). -/
structure Vec3 where
  x : ℤ
  y : ℤ
  z : ℤ
  deriving DecidableEq, Repr

instance : Zero Vec3 := ⟨⟨0, 0, 0⟩⟩

instance : Add Vec3 := ⟨fun a b => ⟨a.x + b.x, a.y + b.y, a.z + b.z⟩⟩

instance : Sub Vec3 := ⟨fun a b => ⟨a.x - b.x, a.y - b.y, a.z - b.z⟩⟩

theorem Vec3.zero_def : (0 : Vec3) = ⟨0, 0, 0⟩ := rfl

theorem Vec3.add_def (a b : Vec3) : a + b = ⟨a.x + b.x, a.y + b.y, a.z + b.z⟩ := rfl

theorem Vec3.sub_def (a b : Vec3) : a - b = ⟨a.x - b.x, a.y - b.y, a.z - b.z⟩ := rfl

/-- Componentwise integer sign of a grid vector (the per-axis step direction
taken by one `moveVolume` call). -/
def Vec3.sgn (v : Vec3) : Vec3 := ⟨v.x.sign, v.y.sign, v.z.sign⟩

/-- L1 norm of a grid vector, the termination measure of the recentering
loop. -/
def Vec3.l1 (v : Vec3) : ℕ := v.x.natAbs + v.y.natAbs + v.z.natAbs

/-- Rational 3-vector, the world-coordinate type (`Eigen::Vector3f`,
modelled exactly over `ℚ`). -/
structure Vec3Q where
  x : ℚ
  y : ℚ
  z : ℚ
  deriving DecidableEq, Repr

/-- Occupancy evidence stored in one voxel. -/
inductive Cell where
  | unknown : Cell
  | free : Cell
  | occupied : Cell
  deriving DecidableEq, Repr

/-- A batch of absolute voxel writes (flat index, new cell value) applied
left to right with `List.set`. -/
def applyWrites (l : List Cell) (ws : List (ℕ × Cell)) : List Cell :=
  ws.foldl (fun g w => g.set w.1 w.2) l

/-- The value of the last write to flat index `i` in a write batch, if any. -/
def lastVal : List (ℕ × Cell) → ℕ → Option Cell
  | [], _ => none
  | w :: ws, i =>
    match lastVal ws i with
    | some v => some v
    | none => if w.1 = i then some w.2 else none

theorem applyWrites_nil (l : List Cell) : applyWrites l [] = l := rfl

theorem applyWrites_cons (l : List Cell) (w : ℕ × Cell) (ws : List (ℕ × Cell)) :
    applyWrites l (w :: ws) = applyWrites (l.set w.1 w.2) ws := rfl

theorem length_applyWrites (l : List Cell) (ws : List (ℕ × Cell)) :
    (applyWrites l ws).length = l.length := by
  induction ws generalizing l with
  | nil => rfl
  | cons w ws ih => rw [applyWrites_cons, ih, List.length_set]

theorem applyWrites_getElem?_of_lastVal_none (l : List Cell) (ws : List (ℕ × Cell))
    (i : ℕ) (h : lastVal ws i = none) : (applyWrites l ws)[i]? = l[i]? := by
  induction ws generalizing l with
  | nil => rfl
  | cons w ws ih =>
    rw [lastVal] at h
    rcases hw : lastVal ws i with _ | v
    · rw [hw] at h
      simp only at h
      have hne : w.1 ≠ i := by
        intro he
        rw [if_pos he] at h
        exact Option.noConfusion h
      rw [applyWrites_cons, ih _ hw, List.getElem?_set_ne hne]
    · rw [hw] at h
      exact Option.noConfusion h

theorem applyWrites_getElem?_of_lastVal_some (l : List Cell) (ws : List (ℕ × Cell))
    (i : ℕ) (v : Cell) (h : lastVal ws i = some v) :
    (applyWrites l ws)[i]? = if i < l.length then some v else none := by
  induction ws generalizing l with
  | nil => exact Option.noConfusion h
  | cons w ws ih =>
    rw [lastVal] at h
    rcases hw : lastVal ws i with _ | u
    · rw [hw] at h
      simp only at h
      have he : w.1 = i := by
        by_contra hne
        rw [if_neg hne] at h
        exact Option.noConfusion h
      have hv : w.2 = v := by
        rw [if_pos he] at h
        exact Option.some.inj h
      rw [applyWrites_cons, applyWrites_getElem?_of_lastVal_none _ _ _ hw, he, hv]
      rcases Nat.lt_or_ge i l.length with hlt | hge
      · rw [List.getElem?_set_self hlt, if_pos hlt]
      · rw [if_neg (Nat.not_lt.mpr hge)]
        rw [List.getElem?_eq_none]
        rw [List.length_set]
        exact hge
    · rw [hw] at h
      have hu : u = v := Option.some.inj h
      rw [hu] at hw
      rw [applyWrites_cons, ih _ hw, List.length_set]

/-- Re-applying an identical batch of absolute voxel writes is a no-op:
the grid after two applications equals the grid after one. -/
theorem applyWrites_idem (l : List Cell) (ws : List (ℕ × Cell)) :
    applyWrites (applyWrites l ws) ws = applyWrites l ws := by
  apply List.ext_getElem?
  intro i
  rcases hw : lastVal ws i with _ | v
  · rw [applyWrites_getElem?_of_lastVal_none _ _ _ hw]
  · rw [applyWrites_getElem?_of_lastVal_some _ _ _ _ hw,
      applyWrites_getElem?_of_lastVal_some _ _ _ _ hw, length_applyWrites]

/-- Truncation radius of the distance field in voxels: the node constructs
`EuclideanDistanceRingBuffer<POW>(resolution, 1.0)` with truncation
distance 1.0 m = 10 voxels at 0.1 m resolution. -/
def truncRadius : ℕ := 10

/-- Sentinel distance value for cells farther than the truncation radius
from any obstacle. -/
def sentinelFar : ℕ := truncRadius + 1

/-- The 3-D storage coordinates of a flat voxel index. -/
def coordsOf (i : ℕ) : ℕ × ℕ × ℕ := (i / (N * N), (i / N) % N, i % N)

/-- Absolute difference of naturals. -/
def ndist (a b : ℕ) : ℕ := max a b - min a b

/-- Manhattan distance between two storage coordinates. -/
def manhattan (p q : ℕ × ℕ × ℕ) : ℕ :=
  ndist p.1 q.1 + ndist p.2.1 q.2.1 + ndist p.2.2 q.2.2

/-- Modelled from the spec: the Ewok distance-propagation code is not in the
repository sources; per the spec the stored distance is a bounded
propagation from occupied voxels capped at the truncation radius, with a
sentinel value beyond it.  Here: the least Manhattan distance (in voxels)
from cell `i` to an occupied cell within the truncation radius, else the
sentinel. -/
def distVal (occ : List Cell) (i : ℕ) : ℕ :=
  (List.range occ.length).foldl
    (fun acc j =>
      if occ.getD j Cell.unknown = Cell.occupied ∧
          manhattan (coordsOf i) (coordsOf j) ≤ truncRadius then
        min acc (manhattan (coordsOf i) (coordsOf j))
      else acc)
    sentinelFar

/-- Modelled from the spec: recompute the whole truncated distance field
from an occupancy grid (the spec leaves the exact propagation policy
open; any deterministic recomputation realizes it). -/
def computeDistance (occ : List Cell) : List ℕ :=
  (List.range occ.length).map (distVal occ)

theorem length_computeDistance (occ : List Cell) :
    (computeDistance occ).length = occ.length := by
  rw [computeDistance, List.length_map, List.length_range]

/-- Modelled from the spec: the Ewok `EuclideanDistanceRingBuffer` state.
A fixed cubic grid of `N^3` voxels stored flat, addressed toroidally: the
integer `offset` says which world-grid coordinate sits at storage slot
(0,0,0); a world index maps to a slot componentwise mod `N`. -/
structure RingBuffer where
  offset : Vec3
  occupancy : List Cell
  distance : List ℕ
  deriving DecidableEq, Repr

/-- Wrap one world-grid coordinate to its storage coordinate in `[0, N)`. -/
def wrap (a : ℤ) : ℕ := (a % (N : ℤ)).toNat

/-- Flat storage index of a world-grid index (toroidal addressing). -/
def slotOf (w : Vec3) : ℕ := wrap w.x * (N * N) + wrap w.y * N + wrap w.z

/-- Writes clearing the x-slice at storage coordinate `p` back to
`unknown` (the voxel layer that rotates out of the moving volume). -/
def sliceX (p : ℕ) : List (ℕ × Cell) :=
  (List.range (N * N)).map (fun k => (p * (N * N) + k, Cell.unknown))

/-- Writes clearing the y-slice at storage coordinate `p`. -/
def sliceY (p : ℕ) : List (ℕ × Cell) :=
  (List.range N).flatMap (fun a => (List.range N).map (fun c => (a * (N * N) + p * N + c, Cell.unknown)))

/-- Writes clearing the z-slice at storage coordinate `p`. -/
def sliceZ (p : ℕ) : List (ℕ × Cell) :=
  (List.range (N * N)).map (fun k => (k * N + p, Cell.unknown))

/-- Modelled from the spec: one `moveVolume` step along the x axis.  The
offset moves one voxel layer toward the sign of `d`, and the layer that
rotates out is cleared and reset to `unknown` (stale world data must not
leak).  `d = 0` moves nothing on this axis. -/
def moveX (s : RingBuffer) (d : ℤ) : RingBuffer :=
  if d = 0 then s
  else if 0 < d then
    let occ := applyWrites s.occupancy (sliceX (wrap s.offset.x))
    ⟨⟨s.offset.x + 1, s.offset.y, s.offset.z⟩, occ, computeDistance occ⟩
  else
    let occ := applyWrites s.occupancy (sliceX (wrap (s.offset.x - 1)))
    ⟨⟨s.offset.x - 1, s.offset.y, s.offset.z⟩, occ, computeDistance occ⟩

/-- Modelled from the spec: one `moveVolume` step along the y axis. -/
def moveY (s : RingBuffer) (d : ℤ) : RingBuffer :=
  if d = 0 then s
  else if 0 < d then
    let occ := applyWrites s.occupancy (sliceY (wrap s.offset.y))
    ⟨⟨s.offset.x, s.offset.y + 1, s.offset.z⟩, occ, computeDistance occ⟩
  else
    let occ := applyWrites s.occupancy (sliceY (wrap (s.offset.y - 1)))
    ⟨⟨s.offset.x, s.offset.y - 1, s.offset.z⟩, occ, computeDistance occ⟩

/-- Modelled from the spec: one `moveVolume` step along the z axis. -/
def moveZ (s : RingBuffer) (d : ℤ) : RingBuffer :=
  if d = 0 then s
  else if 0 < d then
    let occ := applyWrites s.occupancy (sliceZ (wrap s.offset.z))
    ⟨⟨s.offset.x, s.offset.y, s.offset.z + 1⟩, occ, computeDistance occ⟩
  else
    let occ := applyWrites s.occupancy (sliceZ (wrap (s.offset.z - 1)))
    ⟨⟨s.offset.x, s.offset.y, s.offset.z - 1⟩, occ, computeDistance occ⟩

/-- Modelled from the spec: `moveVolume(direction)` shifts the volume one
voxel layer per nonzero axis of `direction`, clearing each layer that
rotates out. -/
def moveVolume (s : RingBuffer) (d : Vec3) : RingBuffer :=
  moveZ (moveY (moveX s d.x) d.y) d.z

/-- Modelled from the spec: `getVolumeCenter()` — the world-grid coordinate
currently mapped to the geometric center of the volume, derived from the
offset. -/
def getVolumeCenter (s : RingBuffer) : Vec3 :=
  ⟨s.offset.x + (N : ℤ) / 2, s.offset.y + (N : ℤ) / 2, s.offset.z + (N : ℤ) / 2⟩

/-- Modelled from the spec: `getIdx` — integer bucketing of a world
coordinate at `resolution` granularity. -/
def getIdx (p : Vec3Q) : Vec3 :=
  ⟨⌊p.x / resolution⌋, ⌊p.y / resolution⌋, ⌊p.z / resolution⌋⟩

/-- Modelled from the spec: `setOffset` — place the volume at a given
world-grid offset (used once at initialization). -/
def setOffset (s : RingBuffer) (idx : Vec3) : RingBuffer :=
  { s with offset := idx }

theorem offset_moveX (s : RingBuffer) (d : ℤ) :
    (moveX s d).offset = ⟨s.offset.x + d.sign, s.offset.y, s.offset.z⟩ := by
  rcases lt_trichotomy d 0 with h | h | h
  · rw [moveX, if_neg (show ¬d = 0 by omega), if_neg (show ¬0 < d by omega),
      Int.sign_eq_neg_one_iff_neg.mpr h]
    norm_num
    omega
  · subst h
    rw [moveX, if_pos rfl, Int.sign_zero]
    norm_num
  · rw [moveX, if_neg (show ¬d = 0 by omega), if_pos h, Int.sign_eq_one_iff_pos.mpr h]

theorem offset_moveY (s : RingBuffer) (d : ℤ) :
    (moveY s d).offset = ⟨s.offset.x, s.offset.y + d.sign, s.offset.z⟩ := by
  rcases lt_trichotomy d 0 with h | h | h
  · rw [moveY, if_neg (show ¬d = 0 by omega), if_neg (show ¬0 < d by omega),
      Int.sign_eq_neg_one_iff_neg.mpr h]
    norm_num
    omega
  · subst h
    rw [moveY, if_pos rfl, Int.sign_zero]
    norm_num
  · rw [moveY, if_neg (show ¬d = 0 by omega), if_pos h, Int.sign_eq_one_iff_pos.mpr h]

theorem offset_moveZ (s : RingBuffer) (d : ℤ) :
    (moveZ s d).offset = ⟨s.offset.x, s.offset.y, s.offset.z + d.sign⟩ := by
  rcases lt_trichotomy d 0 with h | h | h
  · rw [moveZ, if_neg (show ¬d = 0 by omega), if_neg (show ¬0 < d by omega),
      Int.sign_eq_neg_one_iff_neg.mpr h]
    norm_num
    omega
  · subst h
    rw [moveZ, if_pos rfl, Int.sign_zero]
    norm_num
  · rw [moveZ, if_neg (show ¬d = 0 by omega), if_pos h, Int.sign_eq_one_iff_pos.mpr h]

theorem offset_moveVolume (s : RingBuffer) (d : Vec3) :
    (moveVolume s d).offset = s.offset + d.sgn := by
  rw [moveVolume, offset_moveZ, offset_moveY, offset_moveX, Vec3.sgn, Vec3.add_def]

theorem getVolumeCenter_moveVolume (s : RingBuffer) (d : Vec3) :
    getVolumeCenter (moveVolume s d) = getVolumeCenter s + d.sgn := by
  rw [getVolumeCenter, getVolumeCenter, offset_moveVolume, Vec3.sgn, Vec3.add_def,
    Vec3.add_def]
  simp only [Vec3.mk.injEq]
  refine ⟨by ring, by ring, by ring⟩

theorem Int.natAbs_sub_sign (d : ℤ) : (d - d.sign).natAbs = d.natAbs - 1 := by
  rcases lt_trichotomy d 0 with h | h | h
  · rw [Int.sign_eq_neg_one_iff_neg.mpr h]
    omega
  · subst h
    rfl
  · rw [Int.sign_eq_one_iff_pos.mpr h]
    omega

theorem Vec3.l1_sub_sgn_lt (d : Vec3) (h : d ≠ 0) : Vec3.l1 (d - d.sgn) < Vec3.l1 d := by
  rcases d with ⟨a, b, c⟩
  have hne : ¬(a = 0 ∧ b = 0 ∧ c = 0) := by
    intro he
    exact h (by rw [Vec3.zero_def, he.1, he.2.1, he.2.2])
  rw [Vec3.sgn, Vec3.sub_def, Vec3.l1, Vec3.l1]
  simp only [Int.natAbs_sub_sign]
  omega

/-- The recentering loop of `depth_cam_cb` (lines 173–189): while the
difference between the sensor-origin grid index and the volume center is
nonzero, call `moveVolume` with that difference and recompute it. -/
def recenterLoop (target : Vec3) (s : RingBuffer) : RingBuffer :=
  if target - getVolumeCenter s = 0 then s
  else recenterLoop target (moveVolume s (target - getVolumeCenter s))
termination_by Vec3.l1 (target - getVolumeCenter s)
decreasing_by
  rename_i h
  rw [getVolumeCenter_moveVolume]
  have hd : target - (getVolumeCenter s + (target - getVolumeCenter s).sgn) =
      (target - getVolumeCenter s) - (target - getVolumeCenter s).sgn := by
    rw [Vec3.add_def, Vec3.sub_def, Vec3.sub_def, Vec3.sub_def, Vec3.sgn]
    simp only [Vec3.mk.injEq]
    refine ⟨by ring, by ring, by ring⟩
  rw [hd]
  exact Vec3.l1_sub_sgn_lt _ h

/-- Helper: for every target index and every buffer state the recentering
loop ends with the volume center equal to the target grid index. -/
theorem recenterLoop_centers (target : Vec3) (s : RingBuffer) :
    getVolumeCenter (recenterLoop target s) = target := by
  induction s using recenterLoop.induct target with
  | case1 s h =>
    rw [recenterLoop, if_pos h]
    rcases target with ⟨a, b, c⟩
    rcases hc : getVolumeCenter s with ⟨p, q, r⟩
    rw [hc, Vec3.sub_def, Vec3.zero_def, Vec3.mk.injEq] at h
    simp only at h
    rw [Vec3.mk.injEq]
    omega
  | case2 s h ih =>
    rw [recenterLoop, if_neg h]
    exact ih

instance : Add Vec3Q := ⟨fun a b => ⟨a.x + b.x, a.y + b.y, a.z + b.z⟩⟩

instance : Sub Vec3Q := ⟨fun a b => ⟨a.x - b.x, a.y - b.y, a.z - b.z⟩⟩

/-- Scalar multiple of a world vector. -/
def Vec3Q.scale (q : ℚ) (v : Vec3Q) : Vec3Q := ⟨q * v.x, q * v.y, q * v.z⟩

/-- Whether a world-grid index lies inside the volume's current window
`[offset, offset + N)` per axis. -/
def inVolume (offset idx : Vec3) : Bool :=
  decide (offset.x ≤ idx.x ∧ idx.x < offset.x + (N : ℤ) ∧
    offset.y ≤ idx.y ∧ idx.y < offset.y + (N : ℤ) ∧
    offset.z ≤ idx.z ∧ idx.z < offset.z + (N : ℤ))

/-- Modelled from the spec: sample points along the ray from the sensor
origin to a measured point (endpoint excluded), for free-space carving.
The spec fixes no particular traversal; this uses one sample per unit of
grid L1 distance. -/
def raySamples (o p : Vec3Q) : List Vec3Q :=
  let k := Vec3.l1 (getIdx p - getIdx o) + 1
  (List.range k).map (fun i => o + Vec3Q.scale ((i : ℚ) / (k : ℚ)) (p - o))

/-- Modelled from the spec: the voxel writes one measured point
contributes to `insertPointCloud`: for a point inside the volume, the
voxels along the ray from the origin are marked free and the endpoint
voxel occupied; points outside the window contribute nothing. -/
def pointWrites (offset : Vec3) (origin p : Vec3Q) : List (ℕ × Cell) :=
  if inVolume offset (getIdx p) then
    ((raySamples origin p).filter (fun q => inVolume offset (getIdx q))).map
      (fun q => (slotOf (getIdx q), Cell.free))
    ++ [(slotOf (getIdx p), Cell.occupied)]
  else []

/-- Modelled from the spec: `insertPointCloud(cloud, origin)` — ray-carving
evidence update for every point of the frame, followed by recomputation of
the truncated distance field. -/
def insertPointCloud (s : RingBuffer) (cloud : List Vec3Q) (origin : Vec3Q) : RingBuffer :=
  let occ := applyWrites s.occupancy (cloud.flatMap (pointWrites s.offset origin))
  ⟨s.offset, occ, computeDistance occ⟩

/-- C7: inserting the same point-cloud frame from the same sensor origin
twice in succession (no intervening recentering) leaves the volume in the
same occupancy and distance state as inserting it once. -/
theorem insertPointCloud_idem (s : RingBuffer) (cloud : List Vec3Q) (origin : Vec3Q) :
    insertPointCloud (insertPointCloud s cloud origin) cloud origin =
      insertPointCloud s cloud origin := by
  simp only [insertPointCloud]
  rw [applyWrites_idem]

/-- One abstract mutation of the distance volume, as triggered by the
depth callback: a point-cloud insertion, one `moveVolume` step, a full
recentering, or the one-time initial placement. -/
inductive VolumeOp where
  | insert (cloud : List Vec3Q) (origin : Vec3Q) : VolumeOp
  | move (d : Vec3) : VolumeOp
  | recenter (target : Vec3) : VolumeOp
  | place (idx : Vec3) : VolumeOp

/-- Apply one volume operation. -/
def applyOp (s : RingBuffer) : VolumeOp → RingBuffer
  | .insert cloud origin => insertPointCloud s cloud origin
  | .move d => moveVolume s d
  | .recenter t => recenterLoop t s
  | .place idx => setOffset s idx

/-- Apply a sequence of volume operations left to right. -/
def applyOps (s : RingBuffer) (ops : List VolumeOp) : RingBuffer :=
  ops.foldl applyOp s

/-- The buffer as constructed in `main`
(`EuclideanDistanceRingBuffer<POW>(resolution, 1.0)`): all `N^3` voxels
unknown, all distances at the sentinel. -/
def mkBuffer : RingBuffer :=
  ⟨0, List.replicate (N ^ 3) Cell.unknown, List.replicate (N ^ 3) sentinelFar⟩

theorem moveX_preserves (s : RingBuffer) (d : ℤ)
    (h1 : s.occupancy.length = N ^ 3) (h2 : s.distance.length = N ^ 3) :
    (moveX s d).occupancy.length = N ^ 3 ∧ (moveX s d).distance.length = N ^ 3 := by
  rw [moveX]
  split_ifs
  · exact ⟨h1, h2⟩
  · constructor <;> simp [length_applyWrites, length_computeDistance, h1]
  · constructor <;> simp [length_applyWrites, length_computeDistance, h1]

theorem moveY_preserves (s : RingBuffer) (d : ℤ)
    (h1 : s.occupancy.length = N ^ 3) (h2 : s.distance.length = N ^ 3) :
    (moveY s d).occupancy.length = N ^ 3 ∧ (moveY s d).distance.length = N ^ 3 := by
  rw [moveY]
  split_ifs
  · exact ⟨h1, h2⟩
  · constructor <;> simp [length_applyWrites, length_computeDistance, h1]
  · constructor <;> simp [length_applyWrites, length_computeDistance, h1]

theorem moveZ_preserves (s : RingBuffer) (d : ℤ)
    (h1 : s.occupancy.length = N ^ 3) (h2 : s.distance.length = N ^ 3) :
    (moveZ s d).occupancy.length = N ^ 3 ∧ (moveZ s d).distance.length = N ^ 3 := by
  rw [moveZ]
  split_ifs
  · exact ⟨h1, h2⟩
  · constructor <;> simp [length_applyWrites, length_computeDistance, h1]
  · constructor <;> simp [length_applyWrites, length_computeDistance, h1]

theorem moveVolume_preserves (s : RingBuffer) (d : Vec3)
    (h1 : s.occupancy.length = N ^ 3) (h2 : s.distance.length = N ^ 3) :
    (moveVolume s d).occupancy.length = N ^ 3 ∧ (moveVolume s d).distance.length = N ^ 3 := by
  rcases moveX_preserves s d.x h1 h2 with ⟨a1, a2⟩
  rcases moveY_preserves _ d.y a1 a2 with ⟨b1, b2⟩
  exact moveZ_preserves _ d.z b1 b2

theorem recenterLoop_preserves (target : Vec3) (s : RingBuffer)
    (h1 : s.occupancy.length = N ^ 3) (h2 : s.distance.length = N ^ 3) :
    (recenterLoop target s).occupancy.length = N ^ 3 ∧
      (recenterLoop target s).distance.length = N ^ 3 := by
  induction s using recenterLoop.induct target with
  | case1 s h =>
    rw [recenterLoop, if_pos h]
    exact ⟨h1, h2⟩
  | case2 s h ih =>
    rw [recenterLoop, if_neg h]
    rcases moveVolume_preserves s _ h1 h2 with ⟨a1, a2⟩
    exact ih a1 a2

theorem insertPointCloud_preserves (s : RingBuffer) (cloud : List Vec3Q) (origin : Vec3Q)
    (h1 : s.occupancy.length = N ^ 3) :
    (insertPointCloud s cloud origin).occupancy.length = N ^ 3 ∧
      (insertPointCloud s cloud origin).distance.length = N ^ 3 := by
  constructor <;> simp [insertPointCloud, length_applyWrites, length_computeDistance, h1]

theorem applyOp_preserves (s : RingBuffer) (op : VolumeOp)
    (h1 : s.occupancy.length = N ^ 3) (h2 : s.distance.length = N ^ 3) :
    (applyOp s op).occupancy.length = N ^ 3 ∧ (applyOp s op).distance.length = N ^ 3 := by
  rcases op with ⟨cloud, origin⟩ | ⟨d⟩ | ⟨t⟩ | ⟨idx⟩
  · exact insertPointCloud_preserves s cloud origin h1
  · exact moveVolume_preserves s d h1 h2
  · exact recenterLoop_preserves t s h1 h2
  · exact ⟨h1, h2⟩

/-- C4: for every sequence of insertions, volume moves, recenterings and
placements applied to the buffer constructed in `main`, the number of
voxels held by the Distance Volume stays exactly `(2^POW)^3 = 64^3`:
mutation changes which world coordinates the voxels denote, never the
storage itself. -/
theorem applyOps_voxelCount (ops : List VolumeOp) :
    (applyOps mkBuffer ops).occupancy.length = (2 ^ POW) ^ 3 ∧
      (applyOps mkBuffer ops).distance.length = (2 ^ POW) ^ 3 := by
  have key : ∀ (l : List VolumeOp) (s : RingBuffer),
      s.occupancy.length = N ^ 3 → s.distance.length = N ^ 3 →
      (applyOps s l).occupancy.length = N ^ 3 ∧ (applyOps s l).distance.length = N ^ 3 := by
    intro l
    induction l with
    | nil => exact fun s h1 h2 => ⟨h1, h2⟩
    | cons op l ih =>
      intro s h1 h2
      rcases applyOp_preserves s op h1 h2 with ⟨a1, a2⟩
      exact ih (applyOp s op) a1 a2
  have hN : N ^ 3 = (2 ^ POW) ^ 3 := rfl
  rw [← hN]
  exact key ops mkBuffer (by simp [mkBuffer]) (by simp [mkBuffer])

/-- Depth image as seen through cv_bridge: dimensions plus the raw
16-bit row-major range samples, accessed as `data[v*cols + u]`. -/
structure DepthImage where
  cols : ℕ
  rows : ℕ
  data : ℕ → ℕ

/-- Rigid camera-to-world transform (`Eigen::Affine3f T_w_c`): rows of the
linear part plus the translation. -/
structure Transform where
  r1 : Vec3Q
  r2 : Vec3Q
  r3 : Vec3Q
  t : Vec3Q

/-- Dot product of world vectors. -/
def dotQ (a b : Vec3Q) : ℚ := a.x * b.x + a.y * b.y + a.z * b.z

/-- Affine application `T_w_c * p` (with homogeneous coordinate 1). -/
def Transform.apply (T : Transform) (p : Vec3Q) : Vec3Q :=
  ⟨dotQ T.r1 p + T.t.x, dotQ T.r2 p + T.t.y, dotQ T.r3 p + T.t.z⟩

/-- Camera intrinsics from depth_cam_cb, lines 105–108, as exact
rationals. -/
def fx : ℚ := 457815979003906 / 10 ^ 12

/-- See `fx`. -/
def fy : ℚ := 457815979003906 / 10 ^ 12

/-- See `fx`. -/
def cx : ℚ := 249322647094727 / 10 ^ 12

/-- See `fx`. -/
def cy : ℚ := 359 / 2

/-- Pinhole back-projection of pixel (u, v) with raw sample `uval`
(depth-unit divisor 5000), lines 144–148. -/
def backproject (u v : ℕ) (uval : ℕ) : Vec3Q :=
  let val : ℚ := (uval : ℚ) / 5000
  ⟨val * ((u : ℚ) - cx) / fx, val * ((v : ℚ) - cy) / fy, val⟩

/-- The world-frame point pushed into `cloud1` for pixel (u, v). -/
def pixelPoint (img : DepthImage) (T : Transform) (u v : ℕ) : Vec3Q :=
  T.apply (backproject u v (img.data (v * img.cols + u)))

/-- Inner loop of the cloud construction (`for v; v += 4`), lines 136–155:
a nonzero sample pushes one back-projected, transformed point. -/
def loopV (img : DepthImage) (T : Transform) (u v : ℕ) : List Vec3Q :=
  if v < img.rows then
    (if 0 < img.data (v * img.cols + u) then [pixelPoint img T u v] else []) ++
      loopV img T u (v + 4)
  else []
termination_by img.rows - v

/-- Outer loop of the cloud construction (`for u; u += 4`), lines 134–156. -/
def loopU (img : DepthImage) (T : Transform) (u : ℕ) : List Vec3Q :=
  if u < img.cols then loopV img T u 0 ++ loopU img T (u + 4) else []
termination_by img.cols - u

/-- The point cloud `cloud1` built by `depth_cam_cb` from a depth frame
and the camera-to-world transform. -/
def buildCloud (img : DepthImage) (T : Transform) : List Vec3Q :=
  loopU img T 0

/-- Number of iterations a stride-4 loop starting at `v` performs before
reaching `bound`. -/
def strideCount (bound v : ℕ) : ℕ := (bound - v + 3) / 4

/-- Spec-side pixel predicate: u and v multiples of 4, nonzero range
sample. -/
def pixPred (img : DepthImage) (p : ℕ × ℕ) : Bool :=
  decide (p.1 % 4 = 0) && decide (p.2 % 4 = 0) &&
    decide (0 < img.data (p.2 * img.cols + p.1))

/-- Spec-side list of contributing pixels: all pixels of the image in loop
order (u outer, v inner), restricted to `pixPred`. -/
def validPixels (img : DepthImage) : List (ℕ × ℕ) :=
  ((List.range img.cols).product (List.range img.rows)).filter (pixPred img)

/-- The point cloud as the spec words it: exactly one point per valid
pixel, the transformed pinhole back-projection. -/
def specCloud (img : DepthImage) (T : Transform) : List Vec3Q :=
  (validPixels img).map (fun p => pixelPoint img T p.1 p.2)

theorem filter_flatMap {α β : Type} (l : List α) (f : α → List β) (p : β → Bool) :
    (l.flatMap f).filter p = l.flatMap (fun a => (f a).filter p) := by
  induction l with
  | nil => rfl
  | cons a l ih => rw [List.flatMap_cons, List.flatMap_cons, List.filter_append, ih]

theorem flatMap_if {α β : Type} (l : List α) (p : α → Bool) (g : α → List β) :
    (l.flatMap (fun a => if p a then g a else [])) = (l.filter p).flatMap g := by
  induction l with
  | nil => rfl
  | cons a l ih =>
    rw [List.flatMap_cons, List.filter_cons, ih]
    rcases hp : p a with _ | _
    · simp only [Bool.false_eq_true, reduceIte, List.nil_append]
    · simp only [reduceIte, List.flatMap_cons]

theorem range_filter_stride (n : ℕ) :
    (List.range n).filter (fun w => decide (w % 4 = 0)) = List.range' 0 (strideCount n 0) 4 := by
  induction n with
  | zero => rfl
  | succ n ih =>
    rw [List.range_succ, List.filter_append, ih]
    rcases Nat.decEq (n % 4) 0 with h | h
    · have hc : strideCount (n + 1) 0 = strideCount n 0 := by
        rw [strideCount, strideCount]
        omega
      have hf : (List.filter (fun w => decide (w % 4 = 0)) [n]) = [] := by
        simp [h]
      rw [hc, hf, List.append_nil]
    · have hc : strideCount (n + 1) 0 = strideCount n 0 + 1 := by
        rw [strideCount, strideCount]
        omega
      have hf : (List.filter (fun w => decide (w % 4 = 0)) [n]) = [n] := by
        simp [h]
      rw [hc, hf, List.range'_concat]
      have hn : 0 + 4 * strideCount n 0 = n := by
        rw [strideCount]
        omega
      rw [hn]

theorem loopV_eq (img : DepthImage) (T : Transform) (u v : ℕ) :
    loopV img T u v = ((List.range' v (strideCount img.rows v) 4).filter
      (fun w => decide (0 < img.data (w * img.cols + u)))).map (pixelPoint img T u) := by
  induction v using loopV.induct img T u with
  | case1 v h ih =>
    rw [loopV, if_pos h]
    have hc : strideCount img.rows v = strideCount img.rows (v + 4) + 1 := by
      rw [strideCount, strideCount]
      omega
    rw [hc, List.range'_succ, List.filter_cons, ih]
    rcases hd : decide (0 < img.data (v * img.cols + u)) with _ | _
    · have hz : ¬0 < img.data (v * img.cols + u) := of_decide_eq_false hd
      rw [if_neg hz, List.nil_append]
      simp only [Bool.false_eq_true, reduceIte]
    · have hz : 0 < img.data (v * img.cols + u) := of_decide_eq_true hd
      rw [if_pos hz]
      simp only [reduceIte, List.map_cons, List.singleton_append]
  | case2 v h =>
    rw [loopV, if_neg h]
    have hc : strideCount img.rows v = 0 := by
      rw [strideCount]
      omega
    rw [hc]
    rfl

theorem loopU_eq (img : DepthImage) (T : Transform) (u : ℕ) :
    loopU img T u = (List.range' u (strideCount img.cols u) 4).flatMap
      (fun w => loopV img T w 0) := by
  induction u using loopU.induct img T with
  | case1 u h ih =>
    rw [loopU, if_pos h]
    have hc : strideCount img.cols u = strideCount img.cols (u + 4) + 1 := by
      rw [strideCount, strideCount]
      omega
    rw [hc, List.range'_succ, List.flatMap_cons, ih]
  | case2 u h =>
    rw [loopU, if_neg h]
    have hc : strideCount img.cols u = 0 := by
      rw [strideCount]
      omega
    rw [hc]
    rfl

/-- The per-column contribution in spec form. -/
def colCloud (img : DepthImage) (T : Transform) (u : ℕ) : List Vec3Q :=
  ((List.range img.rows).filter
    (fun v => decide (v % 4 = 0) && decide (0 < img.data (v * img.cols + u)))).map
    (fun v => pixelPoint img T u v)

theorem loopV_zero_eq_colCloud (img : DepthImage) (T : Transform) (u : ℕ) :
    loopV img T u 0 = colCloud img T u := by
  rw [loopV_eq, colCloud, ← range_filter_stride, List.filter_filter]
  have hpr : ∀ w ∈ List.range img.rows,
      (decide (0 < img.data (w * img.cols + u)) && decide (w % 4 = 0)) =
      (decide (w % 4 = 0) && decide (0 < img.data (w * img.cols + u))) := by
    intro w _
    exact Bool.and_comm _ _
  rw [List.filter_congr hpr]

/-- C3: the point cloud built by `depth_cam_cb` contains exactly one point
for each pixel (u, v) with u and v multiples of 4 and a nonzero range
sample — namely the camera-to-world transform applied to the pinhole
back-projection with depth `sample/5000` — and no other points: it equals
the map of that back-projection over the (duplicate-free) list of valid
pixels; zero-range samples contribute nothing. -/
theorem buildCloud_eq_specCloud (img : DepthImage) (T : Transform) :
    buildCloud img T = specCloud img T ∧ (validPixels img).Nodup := by
  constructor
  · have hinner : ∀ u : ℕ,
        (((List.range img.rows).map (Prod.mk u)).filter (pixPred img)).map
          (fun p => pixelPoint img T p.1 p.2) =
        (if decide (u % 4 = 0) then colCloud img T u else []) := by
      intro u
      rw [List.filter_map, List.map_map]
      rcases hu : decide (u % 4 = 0) with _ | _
      · have hz : ¬u % 4 = 0 := of_decide_eq_false hu
        have hfalse : ∀ v ∈ List.range img.rows,
            ((pixPred img) ∘ Prod.mk u) v = (fun _ => false) v := by
          intro v _
          simp [pixPred, hz]
        rw [List.filter_congr hfalse, List.filter_false]
        simp only [Bool.false_eq_true, reduceIte, List.map_nil]
      · have hz : u % 4 = 0 := of_decide_eq_true hu
        simp only [reduceIte]
        rw [colCloud]
        have hsame : ∀ v ∈ List.range img.rows,
            ((pixPred img) ∘ Prod.mk u) v =
            (fun v => decide (v % 4 = 0) && decide (0 < img.data (v * img.cols + u))) v := by
          intro v _
          simp [pixPred, hz]
        rw [List.filter_congr hsame]
        rfl
    have lhs : buildCloud img T =
        (List.range' 0 (strideCount img.cols 0) 4).flatMap (fun u => colCloud img T u) := by
      rw [buildCloud, loopU_eq]
      simp only [loopV_zero_eq_colCloud]
    have rhs : specCloud img T =
        (List.range' 0 (strideCount img.cols 0) 4).flatMap (fun u => colCloud img T u) := by
      rw [specCloud, validPixels, List.product, filter_flatMap, List.map_flatMap]
      simp only [hinner]
      rw [flatMap_if, range_filter_stride]
    rw [lhs, rhs]
  · exact ((List.nodup_range _).product (List.nodup_range _)).filter _

/-- Knot spacing (`dt = 0.5` in trajectory_planner.cpp). -/
def dt : ℚ := 1 / 2

/-- Source constant `num_opt_points = 7`. -/
def num_opt_points : ℕ := 7

/-- Source constant `max_velocity = 0.3`. -/
def max_velocity : ℚ := 3 / 10

/-- Source constant `max_acceleration = 0.5`. -/
def max_acceleration : ℚ := 1 / 2

/-- Source constant `distance_threshold = 0.3`. -/
def distance_threshold : ℚ := 3 / 10

/-- Number of per-segment sample intervals used to check the kinodynamic
bound. -/
def sampleCount : ℕ := 16

/-- First derivative of the fixed unit-time shape polynomial
`q(t) = 10 t^3 - 15 t^4 + 6 t^5` (zero boundary velocity/acceleration). -/
def qd (t : ℚ) : ℚ := 30 * t ^ 2 - 60 * t ^ 3 + 30 * t ^ 4

/-- Second derivative of the shape polynomial. -/
def qdd (t : ℚ) : ℚ := 60 * t - 180 * t ^ 2 + 120 * t ^ 3

/-- Largest absolute value in a list of rationals (0 for the empty list). -/
def maxAbs (l : List ℚ) : ℚ := l.foldl (fun a b => max a |b|) 0

/-- Per-axis velocity samples of the unit-duration trajectory with
displacement `d`. -/
def baseVelSamples (d : Vec3Q) : List ℚ :=
  (List.range (sampleCount + 1)).flatMap
    (fun k => [qd ((k : ℚ) / (sampleCount : ℚ)) * d.x,
               qd ((k : ℚ) / (sampleCount : ℚ)) * d.y,
               qd ((k : ℚ) / (sampleCount : ℚ)) * d.z])

/-- Per-axis acceleration samples of the unit-duration trajectory. -/
def baseAccSamples (d : Vec3Q) : List ℚ :=
  (List.range (sampleCount + 1)).flatMap
    (fun k => [qdd ((k : ℚ) / (sampleCount : ℚ)) * d.x,
               qdd ((k : ℚ) / (sampleCount : ℚ)) * d.y,
               qdd ((k : ℚ) / (sampleCount : ℚ)) * d.z])

/-- Modelled from the spec: the Seed Trajectory produced by
`Polynomial3DOptimization<10>::computeTrajectory` (Ewok code not in the
repository) for the two-waypoint path of `endpoint_position_cb`.  The
shape is a fixed smooth polynomial from start to goal; the segment
duration `2^scale` is inflated until the sampled velocity and
acceleration bounds hold, per the spec's automatic time-scaling. -/
structure Traj where
  wstart : Vec3Q
  wgoal : Vec3Q
  scale : ℕ
  deriving DecidableEq, Repr

/-- A (sufficient, not necessarily least) power of two that dominates `q`. -/
def pow2AtLeast (q : ℚ) : ℕ := ⌈q⌉.toNat

/-- Modelled from the spec: duration inflation — pick the scale so that
both sampled bounds hold (see `computeTrajectory_within_limits`). -/
def computeTrajectory (vmax amax : ℚ) (pstart pgoal : Vec3Q) : Traj :=
  ⟨pstart, pgoal,
    pow2AtLeast (max (maxAbs (baseVelSamples (pgoal - pstart)) / vmax)
      (maxAbs (baseAccSamples (pgoal - pstart)) / amax))⟩

/-- Sampled per-axis velocities of a trajectory of duration `2^scale`:
time scaling divides velocities by the duration factor. -/
def trajVelSamples (tr : Traj) : List ℚ :=
  (baseVelSamples (tr.wgoal - tr.wstart)).map (fun v => v / 2 ^ tr.scale)

/-- Sampled per-axis accelerations: scaling divides them by the squared
duration factor. -/
def trajAccSamples (tr : Traj) : List ℚ :=
  (baseAccSamples (tr.wgoal - tr.wstart)).map (fun a => a / (2 ^ tr.scale) ^ 2)

theorem le_foldl_maxAbs (l : List ℚ) (a : ℚ) : a ≤ l.foldl (fun a b => max a |b|) a := by
  induction l generalizing a with
  | nil => exact le_refl a
  | cons b l ih => exact le_trans (le_max_left a |b|) (ih (max a |b|))

theorem abs_le_foldl_maxAbs (l : List ℚ) (a : ℚ) (x : ℚ) (hx : x ∈ l) :
    |x| ≤ l.foldl (fun a b => max a |b|) a := by
  induction l generalizing a with
  | nil => exact absurd hx (List.not_mem_nil x)
  | cons b l ih =>
    rcases List.mem_cons.mp hx with he | hm
    · subst he
      exact le_trans (le_max_right a |x|) (le_foldl_maxAbs l (max a |x|))
    · exact ih (max a |b|) hm

theorem abs_le_maxAbs (l : List ℚ) (x : ℚ) (hx : x ∈ l) : |x| ≤ maxAbs l :=
  abs_le_foldl_maxAbs l 0 x hx

theorem le_two_pow_pow2AtLeast (q : ℚ) : q ≤ 2 ^ pow2AtLeast q := by
  rcases le_or_lt q 0 with h | h
  · exact le_trans h (le_trans zero_le_one (one_le_pow₀ (by norm_num)))
  · have hc : (0 : ℤ) < ⌈q⌉ := Int.ceil_pos.mpr h
    have h1 : q ≤ (⌈q⌉ : ℚ) := Int.le_ceil q
    have h2 : (⌈q⌉ : ℚ) = ((⌈q⌉.toNat : ℕ) : ℚ) := by
      rw [← Int.toNat_of_nonneg (le_of_lt hc)]
      push_cast
      rfl
    have h3 : ((⌈q⌉.toNat : ℕ) : ℚ) ≤ 2 ^ ⌈q⌉.toNat := by
      have hn := Nat.lt_two_pow ⌈q⌉.toNat
      have hcast : ((⌈q⌉.toNat : ℕ) : ℚ) < ((2 ^ ⌈q⌉.toNat : ℕ) : ℚ) := by
        exact_mod_cast hn
      push_cast at hcast
      exact le_of_lt hcast
    rw [pow2AtLeast]
    calc q ≤ (⌈q⌉ : ℚ) := h1
      _ = ((⌈q⌉.toNat : ℕ) : ℚ) := h2
      _ ≤ 2 ^ ⌈q⌉.toNat := h3

/-- C5: for every start/goal waypoint pair and positive limits, every
sampled velocity of the seed trajectory returned by the planner invoked in
`endpoint_position_cb` has magnitude at most `vmax`, and every sampled
acceleration has magnitude at most `amax`. -/
theorem computeTrajectory_within_limits (vmax amax : ℚ) (pstart pgoal : Vec3Q)
    (hv : 0 < vmax) (ha : 0 < amax) :
    ((trajVelSamples (computeTrajectory vmax amax pstart pgoal)).all
      (fun v => decide (|v| ≤ vmax))) = true ∧
    ((trajAccSamples (computeTrajectory vmax amax pstart pgoal)).all
      (fun a => decide (|a| ≤ amax))) = true := by
  set d := pgoal - pstart with hd
  set Mv := maxAbs (baseVelSamples d) with hMv
  set Ma := maxAbs (baseAccSamples d) with hMa
  set m := pow2AtLeast (max (Mv / vmax) (Ma / amax)) with hm
  have hpow : (0 : ℚ) < 2 ^ m := by positivity
  have hpow1 : (1 : ℚ) ≤ 2 ^ m := one_le_pow₀ (by norm_num)
  have hbig : max (Mv / vmax) (Ma / amax) ≤ 2 ^ m := le_two_pow_pow2AtLeast _
  have hMvle : Mv ≤ vmax * 2 ^ m := by
    have h1 : Mv / vmax ≤ 2 ^ m := le_trans (le_max_left _ _) hbig
    calc Mv = vmax * (Mv / vmax) := by field_simp
      _ ≤ vmax * 2 ^ m := by
        exact mul_le_mul_of_nonneg_left h1 (le_of_lt hv)
  have hMale : Ma ≤ amax * (2 ^ m) ^ 2 := by
    have h1 : Ma / amax ≤ 2 ^ m := le_trans (le_max_right _ _) hbig
    have h2 : Ma ≤ amax * 2 ^ m := by
      calc Ma = amax * (Ma / amax) := by field_simp
        _ ≤ amax * 2 ^ m := mul_le_mul_of_nonneg_left h1 (le_of_lt ha)
    calc Ma ≤ amax * 2 ^ m := h2
      _ ≤ amax * (2 ^ m) ^ 2 := by
        apply mul_le_mul_of_nonneg_left _ (le_of_lt ha)
        calc (2 : ℚ) ^ m = 2 ^ m * 1 := by ring
          _ ≤ 2 ^ m * 2 ^ m := mul_le_mul_of_nonneg_left hpow1 (le_of_lt hpow)
          _ = (2 ^ m) ^ 2 := by ring
  constructor
  · rw [List.all_eq_true]
    intro v hvmem
    rw [decide_eq_true_eq]
    rw [trajVelSamples] at hvmem
    simp only [List.mem_map] at hvmem
    obtain ⟨b, hb, hbv⟩ := hvmem
    have hscale : (computeTrajectory vmax amax pstart pgoal).scale = m := rfl
    have hdisp : (computeTrajectory vmax amax pstart pgoal).wgoal -
        (computeTrajectory vmax amax pstart pgoal).wstart = d := rfl
    rw [hdisp] at hb
    rw [hscale] at hbv
    have hble : |b| ≤ Mv := abs_le_maxAbs _ _ hb
    rw [← hbv, abs_div, abs_of_pos hpow, div_le_iff₀ hpow]
    calc |b| ≤ Mv := hble
      _ ≤ vmax * 2 ^ m := hMvle
  · rw [List.all_eq_true]
    intro a hamem
    rw [decide_eq_true_eq]
    rw [trajAccSamples] at hamem
    simp only [List.mem_map] at hamem
    obtain ⟨b, hb, hba⟩ := hamem
    have hscale : (computeTrajectory vmax amax pstart pgoal).scale = m := rfl
    have hdisp : (computeTrajectory vmax amax pstart pgoal).wgoal -
        (computeTrajectory vmax amax pstart pgoal).wstart = d := rfl
    rw [hdisp] at hb
    rw [hscale] at hba
    have hble : |b| ≤ Ma := abs_le_maxAbs _ _ hb
    have hpow2 : (0 : ℚ) < (2 ^ m) ^ 2 := by positivity
    rw [← hba, abs_div, abs_of_pos hpow2, div_le_iff₀ hpow2]
    calc |b| ≤ Ma := hble
      _ ≤ amax * (2 ^ m) ^ 2 := hMale

/-- Witness for C5 at the spec's concrete scenario: start (0,0,0), goal
(5,0,0), limits 0.3 and 0.5. -/
theorem computeTrajectory_within_limits_witness :
    (0 : ℚ) < 3 / 10 ∧ (0 : ℚ) < 1 / 2 ∧
    (((trajVelSamples (computeTrajectory (3 / 10) (1 / 2) ⟨0, 0, 0⟩ ⟨5, 0, 0⟩)).all
      (fun v => decide (|v| ≤ 3 / 10))) = true ∧
    ((trajAccSamples (computeTrajectory (3 / 10) (1 / 2) ⟨0, 0, 0⟩ ⟨5, 0, 0⟩)).all
      (fun a => decide (|a| ≤ 1 / 2))) = true) :=
  ⟨by norm_num, by norm_num,
    computeTrajectory_within_limits (3 / 10) (1 / 2) ⟨0, 0, 0⟩ ⟨5, 0, 0⟩
      (by norm_num) (by norm_num)⟩

/-- The Spline State installed by `endpoint_position_cb`: the
`UniformBSpline3DOptimization<6>` object as a function of its constructor
argument (the seed trajectory and knot spacing) and the four setter calls
(lines 83–88). -/
structure SplineOpt where
  seed : Traj
  knot : ℚ
  numPoints : ℕ
  distBuffer : RingBuffer
  threshold : ℚ
  limVel : ℚ
  limAcc : ℚ
  deriving DecidableEq, Repr

/-- Global mutable state of the trajectory_planner node: the pose
messages, the distance volume, the seed trajectory and the spline
optimizer (lines 48–62). -/
structure PlannerNode where
  endpoint_position : Vec3Q
  local_position : Vec3Q
  edrb : RingBuffer
  traj : Option Traj
  spline_optimization : Option SplineOpt
  initialized : Bool
  deriving DecidableEq, Repr

/-- Callback `endpoint_position_cb` (lines 66–90): store the new goal, build a
fresh two-waypoint seed trajectory from the current local position, and
replace the spline optimizer wholesale with one constructed from that
seed and the fixed configuration constants. -/
def endpoint_position_cb (s : PlannerNode) (msg : Vec3Q) : PlannerNode :=
  let tr := computeTrajectory max_velocity max_acceleration s.local_position msg
  { s with
    endpoint_position := msg
    traj := some tr
    spline_optimization :=
      some ⟨tr, dt, num_opt_points, s.edrb, distance_threshold,
        max_velocity, max_acceleration⟩ }

/-- Callback `local_position_cb` (lines 213–216). -/
def local_position_cb (s : PlannerNode) (msg : Vec3Q) : PlannerNode :=
  { s with local_position := msg }

/-- Callback `depth_cam_cb` (lines 92–211): if the map→drone transform lookup at
the frame timestamp fails (`tfLookup = none`, the catch branch of lines
116–121) the callback returns at once, touching nothing.  Otherwise it
builds the point cloud, centers the volume on the sensor origin
(first frame: `setOffset`; later frames: the `moveVolume` loop) and
inserts the cloud. -/
def depth_cam_cb (s : PlannerNode) (img : DepthImage) (tfLookup : Option Transform) :
    PlannerNode :=
  match tfLookup with
  | none => s
  | some T =>
    let cloud := buildCloud img T
    let origin := T.apply ⟨0, 0, 0⟩
    let s1 :=
      if s.initialized then
        { s with edrb := recenterLoop (getIdx origin) s.edrb }
      else
        { s with edrb := setOffset s.edrb (getIdx origin), initialized := true }
    { s1 with edrb := insertPointCloud s1.edrb cloud origin }

/-- C2: when the pose-transform lookup for a depth frame fails,
`depth_cam_cb` returns without mutating any state — the volume occupancy,
distance field and offset, and the initialized flag, are all exactly the
pre-callback values (whole-frame drop, no partial ingestion); being a
total function, the model never blocks waiting for a transform. -/
theorem depth_cam_cb_drops_frame (s : PlannerNode) (img : DepthImage) :
    (depth_cam_cb s img none).edrb.occupancy = s.edrb.occupancy ∧
    (depth_cam_cb s img none).edrb.distance = s.edrb.distance ∧
    (depth_cam_cb s img none).edrb.offset = s.edrb.offset ∧
    (depth_cam_cb s img none).initialized = s.initialized ∧
    depth_cam_cb s img none = s :=
  ⟨rfl, rfl, rfl, rfl, rfl⟩

/-- C6: the spline optimization state installed by `endpoint_position_cb`
is a function only of the current local position, the new goal, the
distance-buffer reference and the fixed configuration constants: two node
states agreeing on local position and distance buffer — whatever seed
trajectory, spline state or optimization progress they carried before —
yield identical seed trajectories and spline states after the callback. -/
theorem endpoint_position_cb_reseeds (s1 s2 : PlannerNode) (msg : Vec3Q)
    (hl : s1.local_position = s2.local_position) (he : s1.edrb = s2.edrb) :
    (endpoint_position_cb s1 msg).spline_optimization =
      (endpoint_position_cb s2 msg).spline_optimization ∧
    (endpoint_position_cb s1 msg).traj = (endpoint_position_cb s2 msg).traj := by
  constructor <;> simp [endpoint_position_cb, hl, he]

/-- A fresh planner node (no goal seen, nothing optimized). -/
def nodeA : PlannerNode :=
  ⟨⟨0, 0, 0⟩, ⟨1, 2, 3⟩, mkBuffer, none, none, false⟩

/-- A node mid-flight with stale seed and spline state but the same local
position and distance buffer as `nodeA`. -/
def nodeB : PlannerNode :=
  ⟨⟨9, 9, 9⟩, ⟨1, 2, 3⟩, mkBuffer,
    some ⟨⟨7, 7, 7⟩, ⟨8, 8, 8⟩, 3⟩,
    some ⟨⟨⟨7, 7, 7⟩, ⟨8, 8, 8⟩, 3⟩, 1, 1, mkBuffer, 1, 1, 1⟩, true⟩

/-- Witness for C6: the two concrete nodes above differ in goal, seed,
spline state and initialization, agree on local position and buffer, and
get identical spline state from the same goal message. -/
theorem endpoint_position_cb_reseeds_witness :
    nodeA.local_position = nodeB.local_position ∧ nodeA.edrb = nodeB.edrb ∧
    ((endpoint_position_cb nodeA ⟨5, 0, 0⟩).spline_optimization =
      (endpoint_position_cb nodeB ⟨5, 0, 0⟩).spline_optimization ∧
    (endpoint_position_cb nodeA ⟨5, 0, 0⟩).traj =
      (endpoint_position_cb nodeB ⟨5, 0, 0⟩).traj) :=
  ⟨rfl, rfl, endpoint_position_cb_reseeds nodeA nodeB ⟨5, 0, 0⟩ rfl rfl⟩

/-- Source constant `FLIGHT_ALTITUDE 1.0f` in takeoff_n_land.cpp. -/
def FLIGHT_ALTITUDE : ℚ := 1

/-- Source constant `ROS_RATE 20.0`: control-loop iterations per second. -/
def ROS_RATE : ℕ := 20

/-- A pose message (position plus orientation quaternion), exact. -/
structure PoseQ where
  px : ℚ
  py : ℚ
  pz : ℚ
  ox : ℚ
  oy : ℚ
  oz : ℚ
  ow : ℚ
  deriving DecidableEq, Repr

/-- Global state of the takeoff_n_land node relevant to the setpoint
stream: the published setpoint, the (never-published) `pose_NWU`
variable written by `takeOff`, and the latest local position. -/
structure VisState where
  setpoint_pos_NWU : PoseQ
  pose_NWU : PoseQ
  local_position : PoseQ
  deriving DecidableEq, Repr

/-- Procedure `offboardMode` (lines 165–211): captures the current local position
into `setpoint_pos_NWU` (position and orientation) and publishes it —
first the 20 warm-up setpoints, then once per arming-loop iteration
(`armIters` of them, however long arming takes).  Service calls and
`ros::spinOnce` are external and not modelled. -/
def offboardMode (s : VisState) (armIters : ℕ) : VisState × List PoseQ :=
  let s1 := { s with setpoint_pos_NWU := s.local_position }
  (s1, List.replicate (20 + armIters) s1.setpoint_pos_NWU)

/-- Procedure `takeOff` (lines 213–233): assigns the takeoff target — x = 2, y = 2,
z = current altitude + `FLIGHT_ALTITUDE`, current orientation — to
`pose_NWU`, then publishes `setpoint_pos_NWU` for `10 * ROS_RATE`
iterations.  Returns the new state and the list of published setpoints. -/
def takeOff (s : VisState) : VisState × List PoseQ :=
  let p : PoseQ := ⟨2, 2, s.local_position.pz + FLIGHT_ALTITUDE,
    s.local_position.ox, s.local_position.oy, s.local_position.oz, s.local_position.ow⟩
  ({ s with pose_NWU := p }, List.replicate (10 * ROS_RATE) s.setpoint_pos_NWU)

/-- C8: `takeOff` never writes the published setpoint: after
`offboardMode` captured the hold position, every one of the 200 setpoints
published during the takeoff loop is exactly that hold position, the
takeoff target (altitude + 1) lands only in the never-published
`pose_NWU`, and no published setpoint commands the takeoff altitude. -/
theorem takeOff_publishes_hold_position (s : VisState) (armIters : ℕ) :
    (takeOff (offboardMode s armIters).1).1.setpoint_pos_NWU =
      (offboardMode s armIters).1.setpoint_pos_NWU ∧
    (takeOff (offboardMode s armIters).1).2 =
      List.replicate (10 * ROS_RATE) s.local_position ∧
    (takeOff (offboardMode s armIters).1).1.pose_NWU.pz =
      s.local_position.pz + FLIGHT_ALTITUDE ∧
    ((takeOff (offboardMode s armIters).1).2.all
      (fun p => decide ¬(p.pz = s.local_position.pz + FLIGHT_ALTITUDE))) = true := by
  refine ⟨rfl, rfl, rfl, ?_⟩
  have hpub : (takeOff (offboardMode s armIters).1).2 =
      List.replicate (10 * ROS_RATE) s.local_position := rfl
  rw [hpub, List.all_eq_true]
  intro p hp
  have hmem := List.eq_of_mem_replicate hp
  subst hmem
  rw [decide_eq_true_eq, FLIGHT_ALTITUDE]
  intro hcontr
  linarith

/-- Callback `marker_position_cb` (lines 54–98): stores the pose array, reads
`poses[0]` unguarded to broadcast the drone→marker and marker→target
transforms (the broadcast itself is external I/O), then on a successful
map→target lookup (`lookup`) copies the looked-up translation into the
setpoint position.  `none` means the `poses[0]` access was out of
bounds. -/
def marker_position_cb (s : VisState) (poses : List PoseQ)
    (lookup : Option (ℚ × ℚ × ℚ)) : Option VisState :=
  match poses[0]? with
  | none => none
  | some _ =>
    some (match lookup with
      | some t =>
        { s with setpoint_pos_NWU :=
          { s.setpoint_pos_NWU with px := t.1, py := t.2.1, pz := t.2.2 } }
      | none => s)

/-- One iteration of the `turnTowardsMarker` loop (lines 240–268): with a
fresh marker (stamp within one second) it reads `poses[0].position.x`
and `.z` for the yaw computation (the atan2 and the published turn
setpoints are numeric consequences of these two values); with no fresh
marker nothing is read.  `none` means the access was out of bounds. -/
def turnTowardsMarkerBody (s : VisState) (poses : List PoseQ) (fresh : Bool) :
    Option (Option (ℚ × ℚ)) :=
  if fresh then
    match poses[0]? with
    | none => none
    | some p => some (some (p.px, p.pz))
  else some none

/-- One iteration of the `approachMarker` loop (lines 281–305): with a
fresh marker it reads `poses[0].position.z` twice (the `< 2` and the
`< 0.8` "close enough" tests); the returned Bool is the break condition.
`none` means the access was out of bounds. -/
def approachMarkerBody (poses : List PoseQ) (fresh : Bool) : Option (Option Bool) :=
  if fresh then
    match poses[0]? with
    | none => none
    | some p => some (some (decide (p.pz < 4 / 5)))
  else some none

/-- C9: `marker_position_cb`, `turnTowardsMarker` and `approachMarker`
read `poses[0]` without checking non-emptiness: on an empty PoseArray the
access is out of bounds (`none`), and the three operations are safe
exactly under the precondition that every received PoseArray carries at
least one pose. -/
theorem marker_access_requires_nonempty :
    (∀ (s : VisState) (lookup : Option (ℚ × ℚ × ℚ)),
      marker_position_cb s [] lookup = none) ∧
    (∀ (s : VisState), turnTowardsMarkerBody s [] true = none) ∧
    (approachMarkerBody [] true = none) ∧
    (∀ (s : VisState) (poses : List PoseQ) (lookup : Option (ℚ × ℚ × ℚ)) (fresh : Bool),
      poses ≠ [] →
      (marker_position_cb s poses lookup).isSome = true ∧
      (turnTowardsMarkerBody s poses fresh).isSome = true ∧
      (approachMarkerBody poses fresh).isSome = true) := by
  refine ⟨fun s lookup => rfl, fun s => rfl, rfl, ?_⟩
  intro s poses lookup fresh hne
  obtain ⟨p, rest, rfl⟩ := List.exists_cons_of_ne_nil hne
  refine ⟨?_, ?_, ?_⟩
  · simp [marker_position_cb]
  · rcases fresh with _ | _ <;> simp [turnTowardsMarkerBody]
  · rcases fresh with _ | _ <;> simp [approachMarkerBody]

/-- A concrete marker pose. -/
def examplePose : PoseQ := ⟨0, 0, 1, 0, 0, 0, 1⟩

/-- A concrete node state. -/
def visExample : VisState := ⟨examplePose, examplePose, examplePose⟩

/-- Witness for C9: a one-element pose array satisfies the precondition
and all three accesses succeed on it. -/
theorem marker_access_requires_nonempty_witness :
    ([examplePose] ≠ ([] : List PoseQ)) ∧
    (marker_position_cb visExample [examplePose] none).isSome = true ∧
    (turnTowardsMarkerBody visExample [examplePose] true).isSome = true ∧
    (approachMarkerBody [examplePose] true).isSome = true := by
  have h := marker_access_requires_nonempty.2.2.2 visExample [examplePose] none true
    (List.cons_ne_nil _ _)
  exact ⟨List.cons_ne_nil _ _, h.1, h.2.1, h.2.2⟩

/-- The landing-retry loop of `land` (lines 331–336): call the landing
service each tick until a call reports success; `resp n` is the outcome
of the n-th call (`land_client.call(..) && response.success`).  The
C++ loop has no `ros::ok()` guard and no attempt bound; the `fuel`
parameter only lets the unbounded search live in a total model — the
loop's result is `some` for some fuel exactly when a call succeeds. -/
def landRetryLoop (resp : ℕ → Bool) : ℕ → ℕ → Option ℕ
  | 0, _ => none
  | fuel + 1, k => if resp k then some k else landRetryLoop resp fuel (k + 1)

/-- The disarm loop of `land` (lines 347–356): spins while the vehicle
reports armed (`armed d` at tick `d`), modelling `ros::ok()` as true
(process running). -/
def disarmLoop (armed : ℕ → Bool) : ℕ → ℕ → Option ℕ
  | 0, _ => none
  | fuel + 1, k => if armed k then disarmLoop armed fuel (k + 1) else some k

/-- Procedure `land` (lines 320–358): retry the landing service until success, wait
five seconds (`5 * ROS_RATE` ticks), then wait for disarm.  Returns the
tick of the successful landing call and the tick at which the vehicle
first reported disarmed. -/
def land (resp armed : ℕ → Bool) (fuel : ℕ) : Option (ℕ × ℕ) :=
  match landRetryLoop resp fuel 0 with
  | none => none
  | some k =>
    match disarmLoop armed fuel (k + 5 * ROS_RATE + 1) with
    | none => none
    | some d => some (k, d)

theorem landRetryLoop_sound (resp : ℕ → Bool) (fuel : ℕ) :
    ∀ (k j : ℕ), landRetryLoop resp fuel k = some j → resp j = true ∧ k ≤ j := by
  induction fuel with
  | zero => intro k j h; exact Option.noConfusion h
  | succ fuel ih =>
    intro k j h
    rw [landRetryLoop] at h
    by_cases hk : resp k = true
    · rw [if_pos hk] at h
      have := Option.some.inj h
      subst this
      exact ⟨hk, le_refl k⟩
    · rw [if_neg hk] at h
      obtain ⟨h1, h2⟩ := ih (k + 1) j h
      exact ⟨h1, by omega⟩

theorem landRetryLoop_complete (resp : ℕ → Bool) :
    ∀ (n k : ℕ), resp (k + n) = true → (landRetryLoop resp (n + 1) k).isSome = true := by
  intro n
  induction n with
  | zero =>
    intro k h
    rw [landRetryLoop, if_pos (by simpa using h)]
    rfl
  | succ n ih =>
    intro k h
    rw [landRetryLoop]
    by_cases hk : resp k = true
    · rw [if_pos hk]
      rfl
    · rw [if_neg hk]
      exact ih (k + 1) (by rw [show k + 1 + n = k + (n + 1) by omega]; exact h)

theorem disarmLoop_sound (armed : ℕ → Bool) (fuel : ℕ) :
    ∀ (k d : ℕ), disarmLoop armed fuel k = some d → armed d = false ∧ k ≤ d := by
  induction fuel with
  | zero => intro k d h; exact Option.noConfusion h
  | succ fuel ih =>
    intro k d h
    rw [disarmLoop] at h
    by_cases hk : armed k = true
    · rw [if_pos hk] at h
      obtain ⟨h1, h2⟩ := ih (k + 1) d h
      exact ⟨h1, by omega⟩
    · rw [if_neg hk] at h
      have := Option.some.inj h
      subst this
      exact ⟨by simpa using hk, le_refl k⟩

/-- C10: the landing-retry loop terminates (for some fuel) exactly when
the landing service eventually reports success — with no success it never
returns, there being no `ros::ok()` check or attempt bound — and whenever
`land` returns, the service call at tick `k` succeeded and the vehicle
reported disarmed strictly afterwards. -/
theorem land_retry_terminates_iff (resp armed : ℕ → Bool) :
    ((∃ fuel, (landRetryLoop resp fuel 0).isSome = true) ↔ (∃ n, resp n = true)) ∧
    (∀ fuel k d, land resp armed fuel = some (k, d) →
      resp k = true ∧ armed d = false ∧ k < d) := by
  constructor
  · constructor
    · rintro ⟨fuel, hf⟩
      obtain ⟨j, hj⟩ := Option.isSome_iff_exists.mp hf
      obtain ⟨hr, _⟩ := landRetryLoop_sound resp fuel 0 j hj
      exact ⟨j, hr⟩
    · rintro ⟨n, hn⟩
      exact ⟨n + 1, landRetryLoop_complete resp n 0 (by simpa using hn)⟩
  · intro fuel k d h
    rw [land] at h
    rcases hr : landRetryLoop resp fuel 0 with _ | j
    · rw [hr] at h
      exact Option.noConfusion h
    · rw [hr] at h
      dsimp only at h
      rcases hd : disarmLoop armed fuel (j + 5 * ROS_RATE + 1) with _ | e
      · rw [hd] at h
        exact Option.noConfusion h
      · rw [hd] at h
        have hje := Option.some.inj h
        have hj : j = k := congrArg Prod.fst hje
        have he : e = d := congrArg Prod.snd hje
        subst hj
        subst he
        obtain ⟨h1, _⟩ := landRetryLoop_sound resp fuel 0 j hr
        obtain ⟨h2, h3⟩ := disarmLoop_sound armed fuel _ e hd
        exact ⟨h1, h2, by omega⟩

/-- Witness for C10: with an always-succeeding service and an immediately
disarming vehicle, the retry loop terminates and `land` returns the
success tick 0 and disarm tick 101, in order. -/
theorem land_retry_terminates_iff_witness :
    (∃ fuel, (landRetryLoop (fun _ => true) fuel 0).isSome = true) ∧
    ((fun _ => true : ℕ → Bool) 0 = true ∧ (fun _ => false : ℕ → Bool) 101 = false ∧
      0 < 101) := by
  constructor
  · exact (land_retry_terminates_iff (fun _ => true) (fun _ => false)).1.mpr ⟨0, rfl⟩
  · exact (land_retry_terminates_iff (fun _ => true) (fun _ => false)).2 200 0 101 rfl

/-- The volume offset is untouched by a point-cloud insertion. -/
theorem offset_insertPointCloud (s : RingBuffer) (cloud : List Vec3Q) (origin : Vec3Q) :
    (insertPointCloud s cloud origin).offset = s.offset := rfl

/-- C1: for every depth frame and transform, on an initialized node the
recentering loop of `depth_cam_cb` terminates (the loop is a total
well-founded function) and leaves `getVolumeCenter()` equal to the grid
index of the sensor origin; the subsequent point-cloud insertion does not
move the volume, so the volume is centered on the vehicle when the cloud
is inserted. -/
theorem depth_cam_cb_centers_volume (s : PlannerNode) (img : DepthImage) (T : Transform)
    (h : s.initialized = true) :
    getVolumeCenter ((depth_cam_cb s img (some T)).edrb) =
      getIdx (T.apply ⟨0, 0, 0⟩) := by
  have hc := recenterLoop_centers (getIdx (T.apply ⟨0, 0, 0⟩)) s.edrb
  simp only [depth_cam_cb, h, reduceIte]
  exact hc

/-- An initialized planner node. -/
def nodeC : PlannerNode := ⟨⟨0, 0, 0⟩, ⟨0, 0, 0⟩, mkBuffer, none, none, true⟩

/-- An empty depth frame. -/
def imgZero : DepthImage := ⟨0, 0, fun _ => 0⟩

/-- The identity camera-to-world transform. -/
def Tid : Transform := ⟨⟨1, 0, 0⟩, ⟨0, 1, 0⟩, ⟨0, 0, 1⟩, ⟨0, 0, 0⟩⟩

/-- Witness for C1: a concrete initialized node, frame and transform. -/
theorem depth_cam_cb_centers_volume_witness :
    nodeC.initialized = true ∧
    getVolumeCenter ((depth_cam_cb nodeC imgZero (some Tid)).edrb) =
      getIdx (Tid.apply ⟨0, 0, 0⟩) :=
  ⟨rfl, depth_cam_cb_centers_volume nodeC imgZero Tid rfl⟩

end DroneVerify
